import Mathlib

/-!
Shallow embedding of the USDC delegation skill core library
(scripts/lib/delegation.mjs, current revision): the caveat term codecs,
the delegation builder, the EIP-712 style hashing pipeline, the scope and
transfer validators, and the permission context assembler.

Modelling conventions:
* EVM machine integers are Nat; where the JavaScript or ABI layer
  truncates, the byte serializer reduces modulo 256 per byte.
* Hex strings of the source are modelled at the byte level: the source
  slices hex characters only at even offsets past the 0x tag, so slicing
  hex characters corresponds exactly to slicing byte lists.
* The ambient clock reads of the source (Date.now in milliseconds,
  Math.floor of Date.now over 1000 in seconds) become explicit arguments.
* keccak256 of the viem library is implemented for real (Keccak-f 1600,
  rate 136, original Keccak padding), producing the 32 byte digest.
-/

/-- Big-endian byte list read as a number, as BigInt reads a hex slice. -/
def beBytesToNat (bs : List Nat) : Nat := bs.foldl (fun acc b => acc * 256 + b) 0

/-- The k low-order bytes of n, big-endian; the fixed-width serializer
underlying encodePacked and padHex of viem. -/
def natToBeBytes : Nat → Nat → List Nat
  | 0, _ => []
  | k + 1, n => natToBeBytes k (n / 256) ++ [n % 256]

/-- Little-endian byte list read as a number (keccak lane loads). -/
def leBytesToNat (bs : List Nat) : Nat := bs.foldr (fun b acc => b + 256 * acc) 0

/-- The k low-order bytes of n, little-endian (keccak lane stores). -/
def natToLeBytes : Nat → Nat → List Nat
  | 0, _ => []
  | k + 1, n => n % 256 :: natToLeBytes k (n / 256)

def mask64 : Nat := 2 ^ 64 - 1

/-- Rotate a 64-bit lane left by r (0 <= r < 64). -/
def rotl64 (n r : Nat) : Nat := ((n <<< r) ||| (n >>> (64 - r))) &&& mask64

/-- Keccak round constants. -/
def keccakRC : List Nat :=
  [0x0000000000000001, 0x0000000000008082, 0x800000000000808a, 0x8000000080008000,
   0x000000000000808b, 0x0000000080000001, 0x8000000080008081, 0x8000000000008009,
   0x000000000000008a, 0x0000000000000088, 0x0000000080008009, 0x000000008000000a,
   0x000000008000808b, 0x800000000000008b, 0x8000000000008089, 0x8000000000008003,
   0x8000000000008002, 0x8000000000000080, 0x000000000000800a, 0x800000008000000a,
   0x8000000080008081, 0x8000000000008080, 0x0000000080000001, 0x8000000080008008]

/-- Combined rho and pi step source table: entry j holds the source lane
index and left rotation feeding destination lane j. -/
def keccakPiRho : List (Nat × Nat) :=
  [(0, 0), (6, 44), (12, 43), (18, 21), (24, 14),
   (3, 28), (9, 20), (10, 3), (16, 45), (22, 61),
   (1, 1), (7, 6), (13, 25), (19, 8), (20, 18),
   (4, 27), (5, 36), (11, 10), (17, 15), (23, 56),
   (2, 62), (8, 55), (14, 39), (15, 41), (21, 2)]

/-- One Keccak-f round on a 25-lane state (lane x + 5 * y at index x + 5 * y). -/
def keccakRound (st : List Nat) (rc : Nat) : List Nat :=
  let A := fun i => st.getD i 0
  let Cl := (List.range 5).map
    (fun x => A x ^^^ A (x + 5) ^^^ A (x + 10) ^^^ A (x + 15) ^^^ A (x + 20))
  let Dl := (List.range 5).map
    (fun x => Cl.getD ((x + 4) % 5) 0 ^^^ rotl64 (Cl.getD ((x + 1) % 5) 0) 1)
  let T := (List.range 25).map (fun i => A i ^^^ Dl.getD (i % 5) 0)
  let B := fun i => T.getD i 0
  let P := keccakPiRho.map (fun sr => rotl64 (B sr.1) sr.2)
  let Q := fun i => P.getD i 0
  let X := (List.range 25).map (fun i =>
    let row := (i / 5) * 5
    let x := i % 5
    Q i ^^^ ((Q ((x + 1) % 5 + row) ^^^ mask64) &&& Q ((x + 2) % 5 + row)))
  match X with
  | a0 :: rest => (a0 ^^^ rc) :: rest
  | [] => []

/-- The full Keccak-f 1600 permutation: 24 rounds. -/
def keccakF (st : List Nat) : List Nat := keccakRC.foldl keccakRound st

/-- Load a 136-byte rate block as 17 little-endian 64-bit lanes. -/
def blockLanes (block : List Nat) : List Nat :=
  (List.range 17).map (fun i => leBytesToNat ((block.drop (8 * i)).take 8))

/-- Xor a rate block into the first 17 lanes of the state. -/
def xorBlock (st block : List Nat) : List Nat :=
  let lanes := blockLanes block
  (List.range 25).map (fun i => st.getD i 0 ^^^ (if i < 17 then lanes.getD i 0 else 0))

/-- Original Keccak multi-rate padding to a multiple of 136 bytes. -/
def keccakPad (msg : List Nat) : List Nat :=
  let padLen := 136 - msg.length % 136
  msg ++ (if padLen = 1 then [0x81] else 0x01 :: (List.replicate (padLen - 2) 0 ++ [0x80]))

/-- Absorb the padded message block by block; fuel bounds the recursion. -/
def keccakAbsorb : Nat → List Nat → List Nat → List Nat
  | 0, st, _ => st
  | fuel + 1, st, msg =>
    if msg.isEmpty then st
    else keccakAbsorb fuel (keccakF (xorBlock st (msg.take 136))) (msg.drop 136)

/-- Keccak-256 digest of a byte string, as the 32 digest bytes. -/
def keccak256Bytes (msg : List Nat) : List Nat :=
  let padded := keccakPad msg
  let st := keccakAbsorb padded.length (List.replicate 25 0) padded
  ((List.range 4).map (fun i => natToLeBytes 8 (st.getD i 0))).flatten

/-- Keccak-256 digest read as a 256-bit number (the bytes32 value the
source passes around as a 0x-prefixed hex string). -/
def keccak256 (msg : List Nat) : Nat := beBytesToNat (keccak256Bytes msg)

/-- ASCII bytes of a string (toBytes of viem on ASCII input). -/
def strToBytes (s : String) : List Nat := s.data.map Char.toNat

/-! Network configuration constants of the source (addresses as numbers;
the source compares addresses after lowercasing, so value equality is the
faithful model of its string comparison). -/

def USDC_ADDRESS : Nat := 0x036CbD53842c5426634e7929541eC2318f3dCF7e

def USDC_DECIMALS : Nat := 6

def ERC20TransferAmountEnforcer : Nat := 0xf100b0819427117EcF76Ed94B358B1A5b5C6D2Fc

def TimestampEnforcer : Nat := 0x1046bb45C8d673d4ea75321280DB34899413c069

def ValueLteEnforcer : Nat := 0x92Bf12322527cAA612fd31a0e810472BBB106A8F

def ROOT_AUTHORITY : Nat := 0

def DELEGATION_TYPEHASH : Nat :=
  keccak256 (strToBytes
    "Delegation(address delegate,address delegator,bytes32 authority,bytes32 caveatsHash,uint256 salt)")

def CAVEAT_TYPEHASH : Nat :=
  keccak256 (strToBytes "Caveat(address enforcer,bytes32 termsHash)")

/-- One caveat of a delegation: enforcer address, terms byte blob, args
byte blob (args is runtime data, excluded from hashing). -/
structure Caveat where
  enforcer : Nat
  terms : List Nat
  args : List Nat
deriving DecidableEq, Repr

/-- A delegation record as built and validated by the source. The
signature is a byte blob, empty before signing. -/
structure Delegation where
  delegate : Nat
  delegator : Nat
  authority : Nat
  caveats : List Caveat
  salt : Nat
  signature : List Nat
deriving DecidableEq, Repr

/-- Validation outcome: the valid flag plus the collected error strings. -/
structure ValidationResult where
  valid : Bool
  errors : List String
deriving DecidableEq, Repr

/-- The sub-delegation request parameters read by the scope validator. -/
structure SubDelegationParams where
  amount : Option Nat
  expirySeconds : Option Nat
deriving DecidableEq, Repr

/-! Caveat term codecs (encodePacked layouts of the source). -/

/-- encodeERC20TransferAmountTerms: encodePacked(address, uint256),
20 + 32 = 52 bytes. -/
def encodeERC20TransferAmountTerms (tokenAddress amount : Nat) : List Nat :=
  natToBeBytes 20 tokenAddress ++ natToBeBytes 32 amount

/-- encodeTimestampTerms: encodePacked(uint128 threshold, uint128 mode),
16 + 16 = 32 bytes; mode 0 for before (expiry), 1 for after. -/
def encodeTimestampTerms (timestamp : Nat) (mode : String) : List Nat :=
  natToBeBytes 16 timestamp ++ natToBeBytes 16 (if mode = "before" then 0 else 1)

/-- encodeValueLteTerms: a single uint256, 32 bytes. -/
def encodeValueLteTerms (maxValue : Nat) : List Nat :=
  natToBeBytes 32 maxValue

/-- parseUnits of viem specialised to whole-number USDC amounts:
scale into minor units. -/
def parseUnitsUsdc (amount : Nat) : Nat := amount * 10 ^ USDC_DECIMALS

/-- formatUnits of viem on Nat values: pad the decimal digits to the
number of decimals, split integer and fraction, trim trailing zeros of
the fraction, default the integer part to 0. -/
def formatUnits (value decimals : Nat) : String :=
  let digits := (toString value).data
  let padded := List.replicate (decimals - digits.length) '0' ++ digits
  let intPart := padded.take (padded.length - decimals)
  let fracPart := ((padded.drop (padded.length - decimals)).reverse.dropWhile (fun c => c = '0')).reverse
  (if intPart.isEmpty then "0" else String.mk intPart) ++
    (if fracPart.isEmpty then "" else "." ++ String.mk fracPart)

/-- JavaScript truthiness of an optional numeric parameter: absent or
zero is falsy. -/
def optTruthy : Option Nat → Bool
  | none => false
  | some n => !(n == 0)

/-- buildDelegation of the current revision: ValueLteEnforcer(0) first,
then the ERC20 transfer amount caveat when an amount is supplied, then
the timestamp expiry caveat when expirySeconds is supplied. The clock
argument nowMs is Date.now() in milliseconds; the expiry threshold uses
Math.floor(Date.now() / 1000) + expirySeconds and the salt is
BigInt(Date.now()) itself. -/
def buildDelegation (delegator delegate authority : Nat)
    (amount expirySeconds : Option Nat) (nowMs : Nat) : Delegation :=
  let valueCaveats : List Caveat :=
    [⟨ValueLteEnforcer, encodeValueLteTerms 0, []⟩]
  let amountCaveats : List Caveat :=
    match amount with
    | some a =>
      if a = 0 then []
      else [⟨ERC20TransferAmountEnforcer,
             encodeERC20TransferAmountTerms USDC_ADDRESS (parseUnitsUsdc a), []⟩]
    | none => []
  let expiryCaveats : List Caveat :=
    match expirySeconds with
    | some e =>
      if e = 0 then []
      else [⟨TimestampEnforcer, encodeTimestampTerms (nowMs / 1000 + e) "before", []⟩]
    | none => []
  { delegate := delegate
    delegator := delegator
    authority := authority
    caveats := valueCaveats ++ amountCaveats ++ expiryCaveats
    salt := nowMs
    signature := [] }

/-! EIP-712 style hashing (hashCaveat, hashCaveatsArray, getDelegationHash). -/

/-- A 32-byte ABI word. -/
def abiWord (n : Nat) : List Nat := natToBeBytes 32 n

/-- hashCaveat: keccak256(abi.encode(CAVEAT_TYPEHASH, enforcer,
keccak256(terms))); args is not read. -/
def hashCaveat (c : Caveat) : Nat :=
  keccak256 (abiWord CAVEAT_TYPEHASH ++ abiWord c.enforcer ++ abiWord (keccak256 c.terms))

/-- hashCaveatsArray: keccak256 of the concatenated caveat hashes in
list order. -/
def hashCaveatsArray (caveats : List Caveat) : Nat :=
  keccak256 ((caveats.map (fun c => abiWord (hashCaveat c))).flatten)

/-- getDelegationHash: keccak256(abi.encode(DELEGATION_TYPEHASH, delegate,
delegator, authority, hashCaveatsArray(caveats), salt)); neither the
signature nor any caveat args is read. -/
def getDelegationHash (d : Delegation) : Nat :=
  keccak256 (abiWord DELEGATION_TYPEHASH ++ abiWord d.delegate ++ abiWord d.delegator ++
    abiWord d.authority ++ abiWord (hashCaveatsArray d.caveats) ++ abiWord d.salt)

/-! Validators. -/

/-- findCaveat of validateSubDelegationScope: first caveat whose enforcer
matches (the source lowercases both sides; value equality models that). -/
def findCaveat (d : Delegation) (enforcer : Nat) : Option Caveat :=
  d.caveats.find? (fun c => c.enforcer == enforcer)

/-- The decoded parent amount: BigInt of the hex tail after the 20 token
bytes (terms.slice(42) on the 0x hex string). -/
def erc20TermsAmount (c : Caveat) : Nat := beBytesToNat (c.terms.drop 20)

/-- The decoded timestamp threshold: the first 16 bytes
(terms.slice(2, 34)). -/
def timestampTermsThreshold (c : Caveat) : Nat := beBytesToNat (c.terms.take 16)

/-- The decoded timestamp mode: bytes 16 to 31 (terms.slice(34, 66)). -/
def timestampTermsMode (c : Caveat) : Nat := beBytesToNat ((c.terms.drop 16).take 16)

def subAmountMsg (amount : Nat) : String :=
  s!"Sub-delegation amount ({amount}) exceeds parent scope"

def subExpiryMsg : String := "Sub-delegation expiry exceeds parent expiry"

/-- validateSubDelegationScope: compare the requested sub-delegation
amount and expiry against the decoded parent caveats; collect error
strings; valid iff no error. The clock argument now is
Math.floor(Date.now() / 1000). -/
def validateSubDelegationScope (parent : Delegation) (params : SubDelegationParams)
    (now : Nat) : ValidationResult :=
  let amountErrors : List String :=
    match findCaveat parent ERC20TransferAmountEnforcer, params.amount with
    | some cA, some a =>
      if a = 0 then []
      else if parseUnitsUsdc a > erc20TermsAmount cA then [subAmountMsg a] else []
    | _, _ => []
  let expiryErrors : List String :=
    match findCaveat parent TimestampEnforcer, params.expirySeconds with
    | some cT, some e =>
      if e = 0 then []
      else if now + e > timestampTermsThreshold cT then [subExpiryMsg] else []
    | _, _ => []
  let errors := amountErrors ++ expiryErrors
  ⟨errors.isEmpty, errors⟩

def transferAmountMsg (maxAmount : Nat) : String :=
  "Transfer amount exceeds delegated limit of " ++ formatUnits maxAmount USDC_DECIMALS ++ " USDC"

def expiredMsg : String := "Delegation has expired"

/-- The errors one caveat contributes inside the validateTransfer loop:
the amount check for the ERC20 transfer amount enforcer, the expiry check
for the timestamp enforcer in before mode. -/
def caveatTransferErrors (amountWei now : Nat) (c : Caveat) : List String :=
  (if c.enforcer = ERC20TransferAmountEnforcer ∧ amountWei > erc20TermsAmount c
    then [transferAmountMsg (erc20TermsAmount c)] else []) ++
  (if c.enforcer = TimestampEnforcer ∧ timestampTermsMode c = 0 ∧ now ≥ timestampTermsThreshold c
    then [expiredMsg] else [])

/-- validateTransfer: iterate every caveat, collect every violation; the
recipient argument (named to in the source, a reserved token here) is
accepted but never read. The clock argument now is
Math.floor(Date.now() / 1000). -/
def validateTransfer (d : Delegation) (toAddr : Nat) (amount : Nat) (now : Nat) : ValidationResult :=
  let amountWei := parseUnitsUsdc amount
  let errors := (d.caveats.map (caveatTransferErrors amountWei now)).flatten
  ⟨errors.isEmpty, errors⟩

/-! Permission context assembly (encodePermissionContext): the source
maps each delegation of the chain to a plain record and returns
JSON.stringify of the array; there is no integrity checking of the
authority links. The hex renderings below reproduce the lowercase hex
strings the source carries. -/

def natToHexDigit (n : Nat) : Char :=
  if n < 10 then Char.ofNat (48 + n) else Char.ofNat (87 + n)

def natToHexCore : Nat → Nat → List Char
  | 0, _ => []
  | k + 1, n => natToHexCore k (n / 16) ++ [natToHexDigit (n % 16)]

/-- k lowercase hex digits of n, big-endian. -/
def natToHexStr (k n : Nat) : String := String.mk (natToHexCore k n)

/-- A 20-byte address as a 0x hex string. -/
def addrHex (n : Nat) : String := "0x" ++ natToHexStr 40 n

/-- A bytes32 value as a 0x hex string. -/
def b32Hex (n : Nat) : String := "0x" ++ natToHexStr 64 n

/-- A byte blob as a 0x hex string. -/
def bytesHex (bs : List Nat) : String :=
  "0x" ++ String.join (bs.map (fun b => natToHexStr 2 b))

def caveatJson (c : Caveat) : String :=
  "\x7b\"enforcer\":\"" ++ addrHex c.enforcer ++ "\",\"terms\":\"" ++ bytesHex c.terms ++
    "\",\"args\":\"" ++ bytesHex c.args ++ "\"\x7d"

def delegationJson (d : Delegation) : String :=
  "\x7b\"delegate\":\"" ++ addrHex d.delegate ++ "\",\"delegator\":\"" ++ addrHex d.delegator ++
    "\",\"authority\":\"" ++ b32Hex d.authority ++ "\",\"caveats\":[" ++
    String.intercalate "," (d.caveats.map caveatJson) ++ "],\"salt\":\"" ++ toString d.salt ++
    "\",\"signature\":\"" ++ bytesHex d.signature ++ "\"\x7d"

/-- encodePermissionContext: JSON.stringify of the mapped delegation
array, leaf to root; no failure path exists. -/
def encodePermissionContext (delegationChain : List Delegation) : String :=
  "[" ++ String.intercalate "," (delegationChain.map delegationJson) ++ "]"

/-- The chain-integrity relation of spec section 4.6: every link points
at the hash of the next record. The source never checks it. -/
def chainLinked : List Delegation → Prop
  | [] => True
  | [_] => True
  | c :: p :: rest => c.authority = getDelegationHash p ∧ chainLinked (p :: rest)

/-! Codec lemmas: the fixed-width serializer is length-stable and decoding
inverts encoding on in-range values. -/

theorem natToBeBytes_length (k n : Nat) : (natToBeBytes k n).length = k := by
  induction k generalizing n with
  | zero => rfl
  | succ k ih => simp [natToBeBytes, ih]

theorem beBytesToNat_append (l : List Nat) (b : Nat) :
    beBytesToNat (l ++ [b]) = beBytesToNat l * 256 + b := by
  simp [beBytesToNat, List.foldl_append]

theorem beBytesToNat_natToBeBytes (k n : Nat) (h : n < 256 ^ k) :
    beBytesToNat (natToBeBytes k n) = n := by
  induction k generalizing n with
  | zero =>
    have : n = 0 := by simpa using h
    simp [this, natToBeBytes, beBytesToNat]
  | succ k ih =>
    have hdiv : n / 256 < 256 ^ k :=
      Nat.div_lt_of_lt_mul (by rw [← Nat.pow_succ']; exact h)
    rw [natToBeBytes, beBytesToNat_append, ih _ hdiv]
    omega

theorem drop_len_append (l1 l2 : List Nat) (n : Nat) (h : l1.length = n) :
    (l1 ++ l2).drop n = l2 := by
  subst h; exact List.drop_left l1 l2

theorem take_len_append (l1 l2 : List Nat) (n : Nat) (h : l1.length = n) :
    (l1 ++ l2).take n = l1 := by
  subst h; exact List.take_left l1 l2

/-- Decoding the amount word out of well-formed ERC20 transfer amount
terms (the tail after the 20 token bytes) returns the encoded amount,
for every token value. -/
theorem erc20Terms_decode (token amount : Nat) (h : amount < 256 ^ 32) :
    beBytesToNat ((encodeERC20TransferAmountTerms token amount).drop 20) = amount := by
  unfold encodeERC20TransferAmountTerms
  rw [drop_len_append _ _ _ (natToBeBytes_length 20 token), beBytesToNat_natToBeBytes _ _ h]

/-- Decoding the threshold out of well-formed timestamp terms (the first
16 bytes) returns the encoded timestamp. -/
theorem timestampTerms_decode_threshold (t : Nat) (mode : String) (h : t < 256 ^ 16) :
    beBytesToNat ((encodeTimestampTerms t mode).take 16) = t := by
  unfold encodeTimestampTerms
  rw [take_len_append _ _ _ (natToBeBytes_length 16 t), beBytesToNat_natToBeBytes _ _ h]

/-- Decoding the mode out of well-formed timestamp terms (bytes 16 to 31)
returns 0 for before mode and 1 otherwise. -/
theorem timestampTerms_decode_mode (t : Nat) (mode : String) :
    beBytesToNat (((encodeTimestampTerms t mode).drop 16).take 16) =
      if mode = "before" then 0 else 1 := by
  unfold encodeTimestampTerms
  rw [drop_len_append _ _ _ (natToBeBytes_length 16 t),
    List.take_of_length_le (le_of_eq (natToBeBytes_length 16 _))]
  apply beBytesToNat_natToBeBytes
  split <;> decide

/-! Characterizations of the scope validator on the two request shapes the
claims exercise. -/

theorem validateSubDelegationScope_eq_both (p : Delegation) (cA cT : Caveat) (C E now : Nat)
    (hA : findCaveat p ERC20TransferAmountEnforcer = some cA)
    (hT : findCaveat p TimestampEnforcer = some cT)
    (hC : C ≠ 0) (hE : E ≠ 0) :
    validateSubDelegationScope p ⟨some C, some E⟩ now =
      ⟨((if parseUnitsUsdc C > erc20TermsAmount cA then [subAmountMsg C] else []) ++
        (if now + E > timestampTermsThreshold cT then [subExpiryMsg] else [])).isEmpty,
       (if parseUnitsUsdc C > erc20TermsAmount cA then [subAmountMsg C] else []) ++
       (if now + E > timestampTermsThreshold cT then [subExpiryMsg] else [])⟩ := by
  unfold validateSubDelegationScope
  rw [hA, hT]
  simp [hC, hE]

theorem validateSubDelegationScope_eq_amountOnly (p : Delegation) (cA : Caveat) (C now : Nat)
    (hA : findCaveat p ERC20TransferAmountEnforcer = some cA)
    (hC : C ≠ 0) :
    validateSubDelegationScope p ⟨some C, none⟩ now =
      ⟨(if parseUnitsUsdc C > erc20TermsAmount cA then [subAmountMsg C] else []).isEmpty,
       if parseUnitsUsdc C > erc20TermsAmount cA then [subAmountMsg C] else []⟩ := by
  unfold validateSubDelegationScope
  rw [hA]
  rcases h : findCaveat p TimestampEnforcer with _ | cT <;> simp [hC]

/-- C1: for a parent carrying a well-formed amount-limit caveat with limit
P and a well-formed before-mode time-window caveat with notAfter T, the
scope validator reports the amount violation iff the requested amount in
minor units exceeds P (equality accepted) and the expiry violation iff
the computed child expiry now + E exceeds T (equality accepted); it is
valid iff neither is exceeded. -/
theorem validateSubDelegationScope_narrowing_monotone
    (p : Delegation) (cA cT : Caveat) (token P T C E now : Nat)
    (hA : findCaveat p ERC20TransferAmountEnforcer = some cA)
    (hTermsA : cA.terms = encodeERC20TransferAmountTerms token P)
    (hP : P < 256 ^ 32)
    (hT : findCaveat p TimestampEnforcer = some cT)
    (hTermsT : cT.terms = encodeTimestampTerms T "before")
    (hT53 : T < 2 ^ 53)
    (hC : C ≠ 0) (hE : E ≠ 0) :
    (validateSubDelegationScope p ⟨some C, some E⟩ now).errors =
      (if parseUnitsUsdc C > P then [subAmountMsg C] else []) ++
      (if now + E > T then [subExpiryMsg] else []) ∧
    ((validateSubDelegationScope p ⟨some C, some E⟩ now).valid = true ↔
      parseUnitsUsdc C ≤ P ∧ now + E ≤ T) := by
  have hdA : erc20TermsAmount cA = P := by
    unfold erc20TermsAmount
    rw [hTermsA]
    exact erc20Terms_decode token P hP
  have hdT : timestampTermsThreshold cT = T := by
    unfold timestampTermsThreshold
    rw [hTermsT]
    exact timestampTerms_decode_threshold T "before" (by omega)
  have he := validateSubDelegationScope_eq_both p cA cT C E now hA hT hC hE
  rw [he]
  constructor
  · rw [hdA, hdT]
  · rw [hdA, hdT]
    by_cases h1 : parseUnitsUsdc C > P <;> by_cases h2 : now + E > T <;>
      simp [h1, h2] <;> omega

def parentCaveatAW : Caveat :=
  ⟨ERC20TransferAmountEnforcer, encodeERC20TransferAmountTerms USDC_ADDRESS 1000000000, []⟩

def parentCaveatTW : Caveat :=
  ⟨TimestampEnforcer, encodeTimestampTerms 1700000000 "before", []⟩

def parentDelegationW : Delegation :=
  ⟨0xA11CE, 0xB0B, 0,
   [⟨ValueLteEnforcer, encodeValueLteTerms 0, []⟩, parentCaveatAW, parentCaveatTW],
   1699900000000, []⟩

/-- C1 witness: a parent with limit 1000 USDC (1000000000 minor units) and
notAfter 1700000000 accepts a request of 300 USDC expiring inside the
parent window. -/
theorem validateSubDelegationScope_narrowing_monotone_witness :
    (validateSubDelegationScope parentDelegationW ⟨some 300, some 3600⟩ 1699990000).errors =
      (if parseUnitsUsdc 300 > 1000000000 then [subAmountMsg 300] else []) ++
      (if 1699990000 + 3600 > 1700000000 then [subExpiryMsg] else []) ∧
    ((validateSubDelegationScope parentDelegationW ⟨some 300, some 3600⟩ 1699990000).valid = true ↔
      parseUnitsUsdc 300 ≤ 1000000000 ∧ 1699990000 + 3600 ≤ 1700000000) :=
  validateSubDelegationScope_narrowing_monotone parentDelegationW parentCaveatAW parentCaveatTW
    USDC_ADDRESS 1000000000 1700000000 300 3600 1699990000
    (by decide) rfl (by decide) (by decide) rfl (by decide) (by decide) (by decide)

/-- C4 counterexample: a parent amount-limit caveat naming a token other
than USDC is silently compared: the requested 300 (absolute minor value
300000000, below the parent word 1000000000) is accepted with no error,
where the claim requires a cross-token error. -/
theorem validateSubDelegationScope_crossToken_silently_compared :
    validateSubDelegationScope
      ⟨0xA11CE, 0xB0B, 0,
       [⟨ERC20TransferAmountEnforcer, encodeERC20TransferAmountTerms 0xDEADBEEF 1000000000, []⟩],
       1, []⟩
      ⟨some 300, none⟩ 1699990000 = ⟨true, []⟩ := by decide

/-- C4 amended: the scope validator never inspects the token identifier of
the parent amount-limit caveat; for every token value it numerically
compares the requested minor-unit amount against the decoded parent
amount word, and the only error it can emit for this check is the amount
scope violation (no cross-token error exists). -/
theorem validateSubDelegationScope_token_ignored
    (p : Delegation) (cA : Caveat) (token P C now : Nat)
    (hA : findCaveat p ERC20TransferAmountEnforcer = some cA)
    (hTermsA : cA.terms = encodeERC20TransferAmountTerms token P)
    (hP : P < 256 ^ 32) (hC : C ≠ 0) :
    (validateSubDelegationScope p ⟨some C, none⟩ now).errors =
      (if parseUnitsUsdc C > P then [subAmountMsg C] else []) ∧
    (∀ e ∈ (validateSubDelegationScope p ⟨some C, none⟩ now).errors, e = subAmountMsg C) := by
  have hdA : erc20TermsAmount cA = P := by
    unfold erc20TermsAmount
    rw [hTermsA]
    exact erc20Terms_decode token P hP
  have he := validateSubDelegationScope_eq_amountOnly p cA C now hA hC
  rw [he, hdA]
  refine ⟨rfl, ?_⟩
  intro e hee
  by_cases h1 : parseUnitsUsdc C > P <;> simp [h1] at hee <;> simp [hee]

/-- C4 amended witness: with a non-USDC token in the parent caveat, a
request of 2000 USDC against the parent word 1000000000 still yields
exactly the numeric amount scope violation. -/
theorem validateSubDelegationScope_token_ignored_witness :
    (validateSubDelegationScope
      ⟨0xA11CE, 0xB0B, 0,
       [⟨ERC20TransferAmountEnforcer, encodeERC20TransferAmountTerms 0xDEADBEEF 1000000000, []⟩],
       1, []⟩
      ⟨some 2000, none⟩ 1699990000).errors =
      (if parseUnitsUsdc 2000 > 1000000000 then [subAmountMsg 2000] else []) ∧
    (∀ e ∈ (validateSubDelegationScope
      ⟨0xA11CE, 0xB0B, 0,
       [⟨ERC20TransferAmountEnforcer, encodeERC20TransferAmountTerms 0xDEADBEEF 1000000000, []⟩],
       1, []⟩
      ⟨some 2000, none⟩ 1699990000).errors, e = subAmountMsg 2000) :=
  validateSubDelegationScope_token_ignored
    ⟨0xA11CE, 0xB0B, 0,
     [⟨ERC20TransferAmountEnforcer, encodeERC20TransferAmountTerms 0xDEADBEEF 1000000000, []⟩],
     1, []⟩
    ⟨ERC20TransferAmountEnforcer, encodeERC20TransferAmountTerms 0xDEADBEEF 1000000000, []⟩
    0xDEADBEEF 1000000000 2000 1699990000 (by decide) rfl (by decide) (by decide)

/-! Transfer validator lemmas. -/

theorem transferAmountMsg_ne_expiredMsg (m : Nat) : transferAmountMsg m ≠ expiredMsg := by
  intro h
  have h2 := congrArg String.length h
  unfold transferAmountMsg expiredMsg at h2
  rw [String.length_append, String.length_append] at h2
  have e1 : ("Transfer amount exceeds delegated limit of " : String).length = 43 := by decide
  have e2 : (" USDC" : String).length = 5 := by decide
  have e3 : ("Delegation has expired" : String).length = 22 := by decide
  rw [e1, e2, e3] at h2
  omega

theorem mem_validateTransfer_errors (d : Delegation) (toAddr amount now : Nat) (msg : String) :
    msg ∈ (validateTransfer d toAddr amount now).errors ↔
      ∃ c ∈ d.caveats, msg ∈ caveatTransferErrors (parseUnitsUsdc amount) now c := by
  unfold validateTransfer
  constructor
  · intro h
    obtain ⟨s, hs, hm⟩ := List.mem_flatten.1 h
    obtain ⟨c, hc, rfl⟩ := List.mem_map.1 hs
    exact ⟨c, hc, hm⟩
  · rintro ⟨c, hc, hm⟩
    exact List.mem_flatten.2 ⟨_, List.mem_map_of_mem _ hc, hm⟩

theorem expiredMsg_mem_caveatTransferErrors (aw now : Nat) (c : Caveat) :
    expiredMsg ∈ caveatTransferErrors aw now c ↔
      c.enforcer = TimestampEnforcer ∧ timestampTermsMode c = 0 ∧
        timestampTermsThreshold c ≤ now := by
  unfold caveatTransferErrors
  split_ifs with h1 h2 h2 <;>
    simp_all [Ne.symm (transferAmountMsg_ne_expiredMsg _)]

/-- C2 counterexample: a before-mode time-window caveat encoding threshold
0 (the claimed "no upper bound" sentinel) makes the transfer validator
report the expiry violation: the delegation is treated as expired at the
evaluation time 1700000000, where the claim requires no time-window
violation at any time. -/
theorem validateTransfer_zeroNotAfter_always_expired :
    validateTransfer
      ⟨0xA11CE, 0xB0B, 0, [⟨TimestampEnforcer, encodeTimestampTerms 0 "before", []⟩], 5, []⟩
      0xCAFE 10 1700000000 = ⟨false, [expiredMsg]⟩ := by decide

/-- C2 amended: the transfer validator reports the expiry violation iff
the delegation carries a timestamp caveat decoding to before mode (0)
whose threshold is at or below the evaluation time. A threshold of 0 in
before mode is therefore treated as expired at every positive time, not
as unbounded, and after-mode (notBefore) caveats are never flagged. The
length bounds restrict to inputs on which the source does not throw while
slicing. -/
theorem validateTransfer_expired_iff (d : Delegation) (toAddr amount now : Nat)
    (hwf : ∀ c ∈ d.caveats,
      (c.enforcer = ERC20TransferAmountEnforcer → 20 < c.terms.length) ∧
      (c.enforcer = TimestampEnforcer → 16 < c.terms.length)) :
    expiredMsg ∈ (validateTransfer d toAddr amount now).errors ↔
      ∃ c ∈ d.caveats, c.enforcer = TimestampEnforcer ∧ timestampTermsMode c = 0 ∧
        timestampTermsThreshold c ≤ now := by
  rw [mem_validateTransfer_errors]
  constructor
  · rintro ⟨c, hc, hm⟩
    exact ⟨c, hc, (expiredMsg_mem_caveatTransferErrors _ _ c).1 hm⟩
  · rintro ⟨c, hc, hcond⟩
    exact ⟨c, hc, (expiredMsg_mem_caveatTransferErrors _ _ c).2 hcond⟩

/-- C2 amended witness: a before-mode caveat with threshold 1700000000 is
reported expired at evaluation time 1700000000 (exact boundary, now equal
to notAfter is already outside the window). -/
theorem validateTransfer_expired_iff_witness :
    expiredMsg ∈ (validateTransfer
      ⟨0xA11CE, 0xB0B, 0, [parentCaveatTW], 5, []⟩ 0xCAFE 10 1700000000).errors :=
  (validateTransfer_expired_iff
    ⟨0xA11CE, 0xB0B, 0, [parentCaveatTW], 5, []⟩ 0xCAFE 10 1700000000 (by decide)).2
    ⟨parentCaveatTW, by decide, by decide, by decide, by decide⟩

/-- C3 code bug evidence: an amount-limit caveat whose terms blob has 51
bytes (not the required 52) is not rejected with a decode error by the
validator; the validator extracts the bytes after position 20 of the
malformed blob as the limit (here 0) and reports an amount comparison
violation against it. -/
theorem validateTransfer_malformed_terms_compared :
    (List.replicate 51 (0 : Nat)).length ≠ 52 ∧
    validateTransfer
      ⟨0xA11CE, 0xB0B, 0, [⟨ERC20TransferAmountEnforcer, List.replicate 51 0, []⟩], 5, []⟩
      0xCAFE 1 1700000000 = ⟨false, [transferAmountMsg 0]⟩ := by decide

/-- C7: one call to the transfer validator on a delegation carrying both a
violated amount-limit caveat and an expired before-mode time-window caveat
returns both violations, and one call to the scope validator with both the
amount and the expiry exceeded returns both scope violations. -/
theorem validateTransfer_reports_all_violations
    (d : Delegation) (toAddr amount now : Nat) (cA cT : Caveat)
    (hcA : cA ∈ d.caveats) (heA : cA.enforcer = ERC20TransferAmountEnforcer)
    (hlt : erc20TermsAmount cA < parseUnitsUsdc amount)
    (hcT : cT ∈ d.caveats) (heT : cT.enforcer = TimestampEnforcer)
    (hm : timestampTermsMode cT = 0) (hthr : timestampTermsThreshold cT ≤ now)
    (p : Delegation) (pA pT : Caveat) (C E pnow : Nat)
    (hpA : findCaveat p ERC20TransferAmountEnforcer = some pA)
    (hpT : findCaveat p TimestampEnforcer = some pT)
    (hC : C ≠ 0) (hE : E ≠ 0)
    (hsa : erc20TermsAmount pA < parseUnitsUsdc C)
    (hse : timestampTermsThreshold pT < pnow + E) :
    transferAmountMsg (erc20TermsAmount cA) ∈ (validateTransfer d toAddr amount now).errors ∧
    expiredMsg ∈ (validateTransfer d toAddr amount now).errors ∧
    (validateSubDelegationScope p ⟨some C, some E⟩ pnow).errors =
      [subAmountMsg C, subExpiryMsg] := by
  refine ⟨?_, ?_, ?_⟩
  · apply (mem_validateTransfer_errors d toAddr amount now _).2
    refine ⟨cA, hcA, ?_⟩
    unfold caveatTransferErrors
    simp [heA, hlt]
  · apply (mem_validateTransfer_errors d toAddr amount now _).2
    exact ⟨cT, hcT, (expiredMsg_mem_caveatTransferErrors _ _ cT).2 ⟨heT, hm, hthr⟩⟩
  · rw [validateSubDelegationScope_eq_both p pA pT C E pnow hpA hpT hC hE]
    simp [hsa, hse]

/-- C7 witness: a delegation with limit 40 USDC and an expired window
rejects a 50 USDC transfer with both violations in one call, and the
parent of scenario B rejects an oversized, over-long sub-delegation with
both scope violations in one call. -/
theorem validateTransfer_reports_all_violations_witness :
    transferAmountMsg (erc20TermsAmount
      ⟨ERC20TransferAmountEnforcer, encodeERC20TransferAmountTerms USDC_ADDRESS 40000000, []⟩) ∈
      (validateTransfer
        ⟨0xA11CE, 0xB0B, 0,
         [⟨ERC20TransferAmountEnforcer, encodeERC20TransferAmountTerms USDC_ADDRESS 40000000, []⟩,
          ⟨TimestampEnforcer, encodeTimestampTerms 1600000000 "before", []⟩],
         5, []⟩ 0xCAFE 50 1700000000).errors ∧
    expiredMsg ∈ (validateTransfer
        ⟨0xA11CE, 0xB0B, 0,
         [⟨ERC20TransferAmountEnforcer, encodeERC20TransferAmountTerms USDC_ADDRESS 40000000, []⟩,
          ⟨TimestampEnforcer, encodeTimestampTerms 1600000000 "before", []⟩],
         5, []⟩ 0xCAFE 50 1700000000).errors ∧
    (validateSubDelegationScope parentDelegationW ⟨some 1200, some 7200⟩ 1699999000).errors =
      [subAmountMsg 1200, subExpiryMsg] :=
  validateTransfer_reports_all_violations
    ⟨0xA11CE, 0xB0B, 0,
     [⟨ERC20TransferAmountEnforcer, encodeERC20TransferAmountTerms USDC_ADDRESS 40000000, []⟩,
      ⟨TimestampEnforcer, encodeTimestampTerms 1600000000 "before", []⟩],
     5, []⟩ 0xCAFE 50 1700000000
    ⟨ERC20TransferAmountEnforcer, encodeERC20TransferAmountTerms USDC_ADDRESS 40000000, []⟩
    ⟨TimestampEnforcer, encodeTimestampTerms 1600000000 "before", []⟩
    (by decide) (by decide) (by decide) (by decide) (by decide) (by decide) (by decide)
    parentDelegationW parentCaveatAW parentCaveatTW 1200 7200 1699999000
    (by decide) (by decide) (by decide) (by decide) (by decide) (by decide)

/-! Hashing lemmas. -/

theorem hashCaveat_congr (c1 c2 : Caveat)
    (he : c1.enforcer = c2.enforcer) (ht : c1.terms = c2.terms) :
    hashCaveat c1 = hashCaveat c2 := by
  unfold hashCaveat
  rw [he, ht]

theorem caveatWords_congr {l1 l2 : List Caveat}
    (h : List.Forall₂ (fun a b => a.enforcer = b.enforcer ∧ a.terms = b.terms) l1 l2) :
    l1.map (fun c => abiWord (hashCaveat c)) = l2.map (fun c => abiWord (hashCaveat c)) := by
  induction h with
  | nil => rfl
  | cons hab _ ih =>
    simp only [List.map_cons, ih, List.cons.injEq, and_true]
    rw [hashCaveat_congr _ _ hab.1 hab.2]

/-- C6: the delegation hash depends only on delegate, delegator,
authority, salt, and on the enforcer and terms of each caveat in order;
any two delegations agreeing on those fields hash identically no matter
how their signature fields and their caveat args fields differ. -/
theorem getDelegationHash_ignores_signature_and_args (d1 d2 : Delegation)
    (hdel : d1.delegate = d2.delegate) (hdor : d1.delegator = d2.delegator)
    (hauth : d1.authority = d2.authority) (hsalt : d1.salt = d2.salt)
    (hcav : List.Forall₂ (fun a b => a.enforcer = b.enforcer ∧ a.terms = b.terms)
      d1.caveats d2.caveats) :
    getDelegationHash d1 = getDelegationHash d2 := by
  unfold getDelegationHash hashCaveatsArray
  rw [hdel, hdor, hauth, hsalt, caveatWords_congr hcav]

/-- C6 witness: two concrete delegations that differ only in the
signature blob and in the args blob of their caveat hash identically. -/
theorem getDelegationHash_ignores_signature_and_args_witness :
    getDelegationHash ⟨1, 2, 3, [⟨4, [5, 6], [9, 9, 9]⟩], 7, [1, 2, 3]⟩ =
      getDelegationHash ⟨1, 2, 3, [⟨4, [5, 6], []⟩], 7, []⟩ :=
  getDelegationHash_ignores_signature_and_args _ _ rfl rfl rfl rfl
    (List.Forall₂.cons ⟨rfl, rfl⟩ List.Forall₂.nil)

/-- C8: the builder emits caveats in the fixed canonical order: the value
ceiling caveat always first, the amount-limit caveat second exactly when a
(truthy) amount is supplied, the time-window caveat third exactly when a
(truthy) expiry is supplied; omitting either drops that caveat without
disturbing the order of the rest. -/
theorem buildDelegation_canonical_caveat_order
    (delegator delegate authority : Nat) (amount expirySeconds : Option Nat) (nowMs : Nat) :
    (buildDelegation delegator delegate authority amount expirySeconds nowMs).caveats.map
        Caveat.enforcer =
      [ValueLteEnforcer] ++
      (if optTruthy amount then [ERC20TransferAmountEnforcer] else []) ++
      (if optTruthy expirySeconds then [TimestampEnforcer] else []) := by
  unfold buildDelegation optTruthy
  cases amount <;> cases expirySeconds <;> simp <;> split_ifs <;> simp_all

/-- C9 counterexample: two builder calls (different parties and
parameters) that observe the same millisecond clock value receive the same
salt, where the claim requires distinct salts for any two calls in the same
process. -/
theorem buildDelegation_same_millisecond_salt_collision :
    (buildDelegation 0xB0B 0xA11CE 0 (some 5) (some 60) 1700000000000).salt =
      (buildDelegation 0xD0D 0xE1F 0 (some 7) (some 90) 1700000000000).salt := rfl

/-- C9 amended: the builder assigns as salt exactly the millisecond clock
reading; two calls receive distinct salts iff they observe distinct clock
values; nothing enforces strictly increasing salts, so calls inside one
millisecond collide (and with identical fields then collide on the hash,
the hash being a function of the record). -/
theorem buildDelegation_salt_is_clock (d1 e1 a1 d2 e2 a2 : Nat)
    (am1 ex1 am2 ex2 : Option Nat) (t1 t2 : Nat) :
    (buildDelegation d1 e1 a1 am1 ex1 t1).salt = t1 ∧
    ((buildDelegation d1 e1 a1 am1 ex1 t1).salt =
        (buildDelegation d2 e2 a2 am2 ex2 t2).salt ↔ t1 = t2) := by
  refine ⟨rfl, ?_⟩
  simp [buildDelegation]

/-- C10: the result of the transfer validator is completely independent of
the proposed recipient: the flag and the violation list agree for any two
recipients, since no caveat check reads the recipient argument. -/
theorem validateTransfer_recipient_independent (d : Delegation) (r1 r2 amount now : Nat) :
    validateTransfer d r1 amount now = validateTransfer d r2 amount now := rfl

/-! Permission context assembly. -/

theorem encodePermissionContext_pair (d1 d2 : Delegation) :
    encodePermissionContext [d1, d2] =
      "[" ++ delegationJson d1 ++ "," ++ delegationJson d2 ++ "]" := by
  unfold encodePermissionContext
  simp only [List.map_cons, List.map_nil]
  rw [show String.intercalate "," [delegationJson d1, delegationJson d2] =
      delegationJson d1 ++ "," ++ delegationJson d2 from rfl]
  simp [String.append_assoc]

def chainParentW : Delegation :=
  ⟨0xAAAA, 0xBBBB, 0, [⟨ValueLteEnforcer, encodeValueLteTerms 0, []⟩], 7, [1]⟩

def chainParentW2 : Delegation := ⟨0x1111, 0x2222, 0, [], 9, []⟩

/-- C5 counterexample: a two-link chain whose leaf authority is not the
delegation hash of the parent (it is that hash plus one) is still encoded
in full by encodePermissionContext, broken link included verbatim; no
integrity failure occurs, where the claim requires assembly to fail with a
chain-integrity error before producing the context. -/
theorem encodePermissionContext_broken_chain_encoded :
    ¬ chainLinked
        [⟨0xCCCC, 0xAAAA, getDelegationHash chainParentW + 1, [], 8, [2]⟩, chainParentW] ∧
    encodePermissionContext
        [⟨0xCCCC, 0xAAAA, getDelegationHash chainParentW + 1, [], 8, [2]⟩, chainParentW] =
      "[" ++ delegationJson ⟨0xCCCC, 0xAAAA, getDelegationHash chainParentW + 1, [], 8, [2]⟩ ++
        "," ++ delegationJson chainParentW ++ "]" := by
  constructor
  · intro h
    have h1 : getDelegationHash chainParentW + 1 = getDelegationHash chainParentW := h.1
    omega
  · exact encodePermissionContext_pair _ _

/-- C5 amended: encodePermissionContext performs no chain-integrity check:
for every two-link chain whose leaf authority differs from the delegation
hash of the parent record, it still returns the complete JSON encoding of
the chain (each link included verbatim) rather than failing; no
chain-integrity error exists in the assembler. -/
theorem encodePermissionContext_no_integrity_check (leaf parent : Delegation)
    (hbreak : leaf.authority ≠ getDelegationHash parent) :
    ¬ chainLinked [leaf, parent] ∧
    encodePermissionContext [leaf, parent] =
      "[" ++ delegationJson leaf ++ "," ++ delegationJson parent ++ "]" :=
  ⟨fun h => hbreak h.1, encodePermissionContext_pair leaf parent⟩

/-- C5 amended witness: a concrete broken two-link chain is encoded in
full. -/
theorem encodePermissionContext_no_integrity_check_witness :
    ¬ chainLinked
        [⟨0x3333, 0x1111, getDelegationHash chainParentW2 + 1, [], 10, []⟩, chainParentW2] ∧
    encodePermissionContext
        [⟨0x3333, 0x1111, getDelegationHash chainParentW2 + 1, [], 10, []⟩, chainParentW2] =
      "[" ++ delegationJson ⟨0x3333, 0x1111, getDelegationHash chainParentW2 + 1, [], 10, []⟩ ++
        "," ++ delegationJson chainParentW2 ++ "]" :=
  encodePermissionContext_no_integrity_check
    ⟨0x3333, 0x1111, getDelegationHash chainParentW2 + 1, [], 10, []⟩ chainParentW2
    (by intro h
        have h1 : getDelegationHash chainParentW2 + 1 = getDelegationHash chainParentW2 := h
        omega)

